import Mathlib

/-!
Verification of the Centurion wrapper library against its specification.

The development shallowly embeds the relevant parts of the C++ sources:

* `src/src/centurion/video/color.hpp` — the `color` value type, HSV/HSL
  conversion and `blend`.  The `u8` components are modelled as `Nat`
  (with validity `< 256` stated where it matters) and `double`
  arithmetic is modelled as exact rational arithmetic.
* `src/src/centurion/thread/thread.hpp` — the `thread` wrapper's
  join/detach state machine.
* `src/include/font_cache.hpp` — the glyph/string texture cache.
* the semaphore and rectangle components, whose implementations are not
  part of the source tree (only their tests are), are modelled from the
  specification text.
-/

namespace Centurion

/-! ## Color (`src/src/centurion/video/color.hpp`) -/

/-- Mirrors the four `Uint8` fields of the native `SDL_Color` struct. -/
structure SDL_Color where
  r : Nat
  g : Nat
  b : Nat
  a : Nat
deriving Repr, DecidableEq

/-- Mirrors `cen::color`, which stores an `SDL_Color` as its only member. -/
structure color where
  m_color : SDL_Color
deriving Repr, DecidableEq

/-- Mirrors `color::red()`. -/
def color.red (c : color) : Nat := c.m_color.r

/-- Mirrors `color::green()`. -/
def color.green (c : color) : Nat := c.m_color.g

/-- Mirrors `color::blue()`. -/
def color.blue (c : color) : Nat := c.m_color.b

/-- Mirrors `color::alpha()`. -/
def color.alpha (c : color) : Nat := c.m_color.a

/-- Mirrors the converting constructor `color(const SDL_Color&)`, which
copies the supplied struct into `m_color`. -/
def color.fromSDL (sc : SDL_Color) : color := ⟨sc⟩

/-- Mirrors the explicit conversion `operator SDL_Color()`, which returns
`{red(), green(), blue(), alpha()}`. -/
def color.toSDL (c : color) : SDL_Color := ⟨c.red, c.green, c.blue, c.alpha⟩

/-- Mirrors `operator==(const color&, const SDL_Color&)`: componentwise
comparison of the four channels. -/
def colorEqSDL (lhs : color) (rhs : SDL_Color) : Bool :=
  lhs.red == rhs.r && lhs.green == rhs.g && lhs.blue == rhs.b && lhs.alpha == rhs.a

/-- Validity of the `Nat` model of `u8` components: each channel lies in
`[0, 255]`. -/
def color.valid (c : color) : Prop :=
  c.red < 256 ∧ c.green < 256 ∧ c.blue < 256 ∧ c.alpha < 256

/-- Models `std::round` (round half away from zero) on exact rationals. -/
def qround (q : ℚ) : ℤ :=
  if 0 ≤ q then ⌊q + 1 / 2⌋ else -⌊(-q) + 1 / 2⌋

/-- Models `std::fmod` for the nonnegative dividends and positive divisors
used in the HSV/HSL conversions (where truncation and floor agree). -/
def qfmod (a b : ℚ) : ℚ := a - b * (⌊a / b⌋ : ℤ)

/-- Models `static_cast<u8>` applied to an integral value, with the
reduction modulo `2^8` explicit. -/
def u8cast (z : ℤ) : Nat := z.toNat % 256

/-- The entry assertions of `color::from_hsv`. -/
def from_hsv_assertions (hue saturation value : ℚ) : Prop :=
  0 ≤ hue ∧ hue ≤ 360 ∧ 0 ≤ saturation ∧ saturation ≤ 100 ∧ 0 ≤ value ∧ value ≤ 100

/-- The entry assertions of `color::from_hsl`. -/
def from_hsl_assertions (hue saturation lightness : ℚ) : Prop :=
  0 ≤ hue ∧ hue ≤ 360 ∧ 0 ≤ saturation ∧ saturation ≤ 100 ∧ 0 ≤ lightness ∧ lightness ≤ 100

/-- Mirrors `color::from_hsv`, including its six-sector case analysis on
`hp = hue / 60`; a fall-through leaves all three components at zero, as in
the C++ zero-initialised `red`, `green`, `blue` locals. -/
def from_hsv (hue saturation value : ℚ) : color :=
  let v := value / 100
  let chroma := v * (saturation / 100)
  let hp := hue / 60
  let x := chroma * (1 - |qfmod hp 2 - 1|)
  let rgb : ℚ × ℚ × ℚ :=
    if 0 ≤ hp ∧ hp ≤ 1 then (chroma, x, 0)
    else if 1 < hp ∧ hp ≤ 2 then (x, chroma, 0)
    else if 2 < hp ∧ hp ≤ 3 then (0, chroma, x)
    else if 3 < hp ∧ hp ≤ 4 then (0, x, chroma)
    else if 4 < hp ∧ hp ≤ 5 then (x, 0, chroma)
    else if 5 < hp ∧ hp ≤ 6 then (chroma, 0, x)
    else (0, 0, 0)
  let m := v - chroma
  ⟨⟨u8cast (qround ((rgb.1 + m) * 255)),
    u8cast (qround ((rgb.2.1 + m) * 255)),
    u8cast (qround ((rgb.2.2 + m) * 255)),
    255⟩⟩

/-- Mirrors `color::from_hsl`, including its six-sector case analysis on
`hp = hue / 60`; note that every sector test here is of the shape
`k <= hp && hp < k+1`, so `hp = 6` matches no sector and falls through
with `red = green = blue = 0`. -/
def from_hsl (hue saturation lightness : ℚ) : color :=
  let s := saturation / 100
  let l := lightness / 100
  let chroma := (1 - |2 * l - 1|) * s
  let hp := hue / 60
  let x := chroma * (1 - |qfmod hp 2 - 1|)
  let rgb : ℚ × ℚ × ℚ :=
    if 0 ≤ hp ∧ hp < 1 then (chroma, x, 0)
    else if 1 ≤ hp ∧ hp < 2 then (x, chroma, 0)
    else if 2 ≤ hp ∧ hp < 3 then (0, chroma, x)
    else if 3 ≤ hp ∧ hp < 4 then (0, x, chroma)
    else if 4 ≤ hp ∧ hp < 5 then (x, 0, chroma)
    else if 5 ≤ hp ∧ hp < 6 then (chroma, 0, x)
    else (0, 0, 0)
  let m := l - chroma / 2
  ⟨⟨u8cast (qround ((rgb.1 + m) * 255)),
    u8cast (qround ((rgb.2.1 + m) * 255)),
    u8cast (qround ((rgb.2.2 + m) * 255)),
    255⟩⟩

/-- Number of sector conditions of `from_hsv` satisfied by a given `hp`. -/
def hsvBranchCount (hp : ℚ) : Nat :=
  (if 0 ≤ hp ∧ hp ≤ 1 then 1 else 0) + (if 1 < hp ∧ hp ≤ 2 then 1 else 0) +
  (if 2 < hp ∧ hp ≤ 3 then 1 else 0) + (if 3 < hp ∧ hp ≤ 4 then 1 else 0) +
  (if 4 < hp ∧ hp ≤ 5 then 1 else 0) + (if 5 < hp ∧ hp ≤ 6 then 1 else 0)

/-- Number of sector conditions of `from_hsl` satisfied by a given `hp`. -/
def hslBranchCount (hp : ℚ) : Nat :=
  (if 0 ≤ hp ∧ hp < 1 then 1 else 0) + (if 1 ≤ hp ∧ hp < 2 then 1 else 0) +
  (if 2 ≤ hp ∧ hp < 3 then 1 else 0) + (if 3 ≤ hp ∧ hp < 4 then 1 else 0) +
  (if 4 ≤ hp ∧ hp < 5 then 1 else 0) + (if 5 ≤ hp ∧ hp < 6 then 1 else 0)

/-- Mirrors `cen::blend`, linear interpolation of each channel followed by
`std::round` and a cast back to `u8`. -/
def blend (a b : color) (bias : ℚ) : color :=
  let invBias := 1 - bias
  let red := (a.red : ℚ) * invBias + (b.red : ℚ) * bias
  let green := (a.green : ℚ) * invBias + (b.green : ℚ) * bias
  let blue := (a.blue : ℚ) * invBias + (b.blue : ℚ) * bias
  let alpha := (a.alpha : ℚ) * invBias + (b.alpha : ℚ) * bias
  ⟨⟨u8cast (qround red), u8cast (qround green), u8cast (qround blue),
    u8cast (qround alpha)⟩⟩

/-! ## Thread (`src/src/centurion/thread/thread.hpp`)

The wrapper owns an `SDL_Thread*` handle plus two `bool` flags.  The
native calls (`SDL_CreateThread`, `SDL_WaitThread`, `SDL_DetachThread`)
are external; their observable inputs are passed in explicitly: the
handle returned by `SDL_CreateThread` as an `Option Nat` (`none` models a
null pointer) and the status written by `SDL_WaitThread` as an `Int`. -/

/-- The state of a `cen::thread`: the (non-null) handle together with the
`m_joined` and `m_detached` member flags. -/
structure thread where
  m_thread : Nat
  m_joined : Bool
  m_detached : Bool
deriving Repr, DecidableEq

/-- Mirrors the `thread` constructor: if `SDL_CreateThread` returned null,
`sdl_error` is thrown (modelled by `Except.error`); otherwise the handle is
stored and the flags start out `false`. -/
def thread_ctor (handle : Option Nat) : Except String thread :=
  match handle with
  | none => .error "sdl_error"
  | some p => .ok ⟨p, false, false⟩

/-- Mirrors `thread::joinable()`: `!m_joined && !m_detached`. -/
def thread.joinable (t : thread) : Bool :=
  !t.m_joined && !t.m_detached

/-- Mirrors `thread::join()`.  `sdlStatus` is the status that
`SDL_WaitThread` would report.  Returns the new state, the returned status
code, and whether `SDL_WaitThread` was actually invoked. -/
def thread.join (t : thread) (sdlStatus : Int) : thread × Int × Bool :=
  if t.m_joined || t.m_detached then (t, 0, false)
  else ({ t with m_joined := true }, sdlStatus, true)

/-- Mirrors `thread::detach()`.  Returns the new state and whether
`SDL_DetachThread` was actually invoked. -/
def thread.detach (t : thread) : thread × Bool :=
  if t.m_joined || t.m_detached then (t, false)
  else ({ t with m_detached := true }, true)

/-- Mirrors the destructor `~thread()`: `if (joinable()) { join(); }`.
Returns the final state and whether an actual join (a call into
`SDL_WaitThread`) was performed. -/
def thread_dtor (t : thread) (sdlStatus : Int) : thread × Bool :=
  if t.joinable then ((t.join sdlStatus).1, (t.join sdlStatus).2.2)
  else (t, false)

/-- The states of a `thread` object reachable through its operations:
construction (both flags `false`), `join`, and `detach`. -/
inductive thread.Reachable : thread → Prop
  | ctor (p : Nat) : thread.Reachable ⟨p, false, false⟩
  | join (t : thread) (s : Int) : thread.Reachable t →
      thread.Reachable (t.join s).1
  | detach (t : thread) : thread.Reachable t →
      thread.Reachable (t.detach).1

/-! ## Font cache (`src/include/font_cache.hpp`)

`unicode` code points and `hash_id` keys are modelled as `Nat`; textures
are opaque handles modelled as `Nat`.  The font and renderer are external
(their headers are not part of the tree), so they are modelled as bundles
of abstract functions: `is_glyph_provided` mirrors
`font::is_glyph_provided`, `metricsOf glyph` mirrors
`font::get_metrics(glyph).value()`, `render_glyph` mirrors
`font_cache::create_glyph_texture` (a call into `TTF_RenderGlyph_Blended`
plus texture creation), and `render_blended_utf8` mirrors
`basic_renderer::render_blended_utf8`.  The two `std::unordered_map`
members are modelled as functional maps `Nat → Option _`. -/

/-- Mirrors `cen::glyph_metrics` (declared in the external `font.hpp`). -/
structure glyph_metrics where
  minX : Int
  minY : Int
  maxX : Int
  maxY : Int
  advance : Int
deriving Repr, DecidableEq

/-- Abstract model of the external `cen::font`. -/
structure font where
  is_glyph_provided : Nat → Bool
  metricsOf : Nat → glyph_metrics

/-- Abstract model of the renderer used by the font cache. -/
structure renderer where
  render_glyph : Nat → Nat
  render_blended_utf8 : String → font → Nat

/-- Mirrors `font_cache::glyph_data`: a cached texture plus metrics. -/
structure glyph_data where
  cached : Nat
  metrics : glyph_metrics
deriving Repr, DecidableEq

/-- The state of a `cen::font_cache`: the font, the glyph map `m_glyphs`
and the string-texture map `m_strings`. -/
structure font_cache where
  m_font : font
  m_glyphs : Nat → Option glyph_data
  m_strings : Nat → Option Nat

/-- Mirrors `font_cache::has(glyph)`: membership in `m_glyphs`. -/
def font_cache.has (c : font_cache) (glyph : Nat) : Bool :=
  (c.m_glyphs glyph).isSome

/-- Mirrors `font_cache::has_stored(id)`: membership in `m_strings`. -/
def font_cache.has_stored (c : font_cache) (id : Nat) : Bool :=
  (c.m_strings id).isSome

/-- Mirrors `font_cache::get_stored(id)` (which requires the id to be
present); absence is modelled by `none`. -/
def font_cache.get_stored (c : font_cache) (id : Nat) : Option Nat :=
  c.m_strings id

/-- Mirrors `font_cache::add_glyph(renderer, glyph)`: a no-op when the
glyph is already cached or not provided by the font, otherwise an
insertion of the rendered texture and the font metrics under `glyph`. -/
def font_cache.add_glyph (c : font_cache) (r : renderer) (glyph : Nat) :
    font_cache :=
  if c.has glyph || !(c.m_font.is_glyph_provided glyph) then c
  else
    { c with
      m_glyphs := fun g =>
        if g = glyph then some ⟨r.render_glyph glyph, c.m_font.metricsOf glyph⟩
        else c.m_glyphs g }

/-- Mirrors `font_cache::add_range(renderer, begin, end)`: the loop
`for (auto ch = begin; ch < end; ++ch) add_glyph(renderer, ch);`. -/
def font_cache.add_range (c : font_cache) (r : renderer) (lo hi : Nat) :
    font_cache :=
  if _h : lo < hi then (c.add_glyph r lo).add_range r (lo + 1) hi
  else c
termination_by hi - lo

/-- Modelled from the spec: the private `font_cache::store(id, texture)`
member is declared in the header but its body lives outside the tree; per
the specification there is "no invalidation logic beyond explicit
overwrite" and "any previous cached string associated with the supplied ID
will be overwritten", so `store` writes the texture under `id` in
`m_strings`, replacing any previous entry. -/
def font_cache.store (c : font_cache) (id tex : Nat) : font_cache :=
  { c with
    m_strings := fun k => if k = id then some tex else c.m_strings k }

/-- Mirrors `font_cache::store_blended_utf8(id, string, renderer)`:
`store(id, renderer.render_blended_utf8(string, get_font()))`. -/
def font_cache.store_blended_utf8 (c : font_cache) (id : Nat) (s : String)
    (r : renderer) : font_cache :=
  c.store id (r.render_blended_utf8 s c.m_font)

/-! ## Semaphore (modelled from the spec)

The semaphore implementation is not part of the tree; only
`src/test/unit-tests/thread/semaphore_test.cpp` is.  Per the spec the
class is a direct proxy for the native counting semaphore: construction
with `n` tokens, `tokens()` reads the counter, `release` increments it and
a successful `acquire` decrements it. -/

/-- Modelled from the spec: the state of a `cen::semaphore`, a counting
semaphore holding a number of tokens. -/
structure semaphore where
  tokens : Nat
deriving Repr, DecidableEq

/-- Modelled from the spec: the semaphore constructor, creating a
semaphore with the given number of tokens. -/
def semaphore_ctor (n : Nat) : semaphore := ⟨n⟩

/-- Modelled from the spec: a successful `acquire` takes one token; with
zero tokens the (blocking) acquire cannot succeed immediately, modelled by
`none`. -/
def semaphore.acquire (s : semaphore) : Option semaphore :=
  if 0 < s.tokens then some ⟨s.tokens - 1⟩ else none

/-- Modelled from the spec: `release` returns one token. -/
def semaphore.release (s : semaphore) : semaphore :=
  ⟨s.tokens + 1⟩

/-! ## Rectangle union (modelled from the spec)

The rectangle implementation is not part of the tree; only
`src/test/unittests/geometry/rect_test.cpp` is.  Per the spec,
`get_union` of two rectangles returns their bounding box; the repository
test additionally pins down the behaviour on rectangles without area
(`get_union(empty, fst) == fst`), so area-less arguments are returned
unchanged rather than folded into the min/max computation.  Coordinates
are modelled as integers. -/

/-- Modelled from the spec: a rectangle given by position and size. -/
structure rect where
  x : Int
  y : Int
  w : Int
  h : Int
deriving Repr, DecidableEq

/-- Modelled from the spec: `rect::max_x()`, `x + width`. -/
def rect.max_x (a : rect) : Int := a.x + a.w

/-- Modelled from the spec: `rect::max_y()`, `y + height`. -/
def rect.max_y (a : rect) : Int := a.y + a.h

/-- Modelled from the spec: `rect::has_area()`, positive width and
height. -/
def rect.has_area (a : rect) : Bool :=
  decide (0 < a.w) && decide (0 < a.h)

/-- Region membership of an integer point in a rectangle, half-open on
the far edges; a rectangle without area contains no point. -/
def rect.contains (a : rect) (px py : Int) : Prop :=
  a.x ≤ px ∧ px < a.max_x ∧ a.y ≤ py ∧ py < a.max_y

instance (a : rect) (px py : Int) : Decidable (a.contains px py) := by
  unfold rect.contains; infer_instance

/-- Modelled from the spec: `cen::get_union`, the bounding box of two
rectangles, with area-less arguments handled as in the repository test. -/
def get_union (a b : rect) : rect :=
  if !a.has_area && !b.has_area then ⟨0, 0, 0, 0⟩
  else if !a.has_area then b
  else if !b.has_area then a
  else
    let nx := min a.x b.x
    let ny := min a.y b.y
    let nmx := max a.max_x b.max_x
    let nmy := max a.max_y b.max_y
    ⟨nx, ny, nmx - nx, nmy - ny⟩

/-! ## Concrete instances used by witnesses -/

/-- A concrete font providing every glyph, for witness evaluation. -/
def fontW : font := ⟨fun _ => true, fun g => ⟨0, 0, 1, 1, Int.ofNat g⟩⟩

/-- A concrete font cache with empty maps, for witness evaluation. -/
def cacheW : font_cache := ⟨fontW, fun _ => none, fun _ => none⟩

/-- A concrete renderer, for witness evaluation. -/
def rendererW : renderer := ⟨fun g => g + 1000, fun s _ => s.length⟩

/-! ## Helper lemmas -/

theorem thread_reachable_not_both (t : thread) (ht : thread.Reachable t) :
    ¬(t.m_joined = true ∧ t.m_detached = true) := by
  induction ht with
  | ctor p => simp
  | join t s _ ih =>
    by_cases h : (t.m_joined || t.m_detached) = true
    · simpa [thread.join, h] using ih
    · simp only [Bool.or_eq_true, not_or, Bool.not_eq_true] at h
      simp [thread.join, h.1, h.2]
  | detach t _ ih =>
    by_cases h : (t.m_joined || t.m_detached) = true
    · simpa [thread.detach, h] using ih
    · simp only [Bool.or_eq_true, not_or, Bool.not_eq_true] at h
      simp [thread.detach, h.1, h.2]

theorem add_range_eq_foldl (n : Nat) (r : renderer) (c : font_cache)
    (lo hi : Nat) (h : hi - lo = n) :
    c.add_range r lo hi =
      (List.range' lo n).foldl (fun acc ch => acc.add_glyph r ch) c := by
  induction n generalizing c lo with
  | zero =>
    have hn : ¬ lo < hi := by omega
    unfold font_cache.add_range
    simp [hn]
  | succ k ih =>
    have hlt : lo < hi := by omega
    unfold font_cache.add_range
    rw [dif_pos hlt, List.range'_succ, List.foldl_cons]
    exact ih (c.add_glyph r lo) (lo + 1) (by omega)

/-! ## Claim theorems -/

/-- C5: a `color` constructed from an `SDL_Color` compares equal to it
componentwise under `operator==`, and converting back via
`operator SDL_Color` yields a struct with the same four fields. -/
theorem c5_sdl_color_roundtrip (c : SDL_Color) :
    colorEqSDL (color.fromSDL c) c = true ∧ (color.fromSDL c).toSDL = c := by
  cases c
  simp [colorEqSDL, color.fromSDL, color.toSDL,
    color.red, color.green, color.blue, color.alpha]

/-- C4: the `thread` constructor throws `sdl_error` if and only if
`SDL_CreateThread` returned a null pointer; on success it stores the
non-null handle with both flags clear and throws nothing. -/
theorem c4_thread_ctor_error_iff_null (handle : Option Nat) :
    (thread_ctor handle = .error "sdl_error" ↔ handle = none) ∧
    (∀ p, handle = some p → thread_ctor handle = .ok ⟨p, false, false⟩) := by
  cases handle <;> simp [thread_ctor]

/-- Witness for C4 at a concrete handle. -/
theorem c4_thread_ctor_error_iff_null_witness :
    thread_ctor (some 7) = .ok ⟨7, false, false⟩ :=
  (c4_thread_ctor_error_iff_null (some 7)).2 7 rfl

/-- C3: the destructor performs a join exactly when the thread is
joinable, i.e. when neither `m_joined` nor `m_detached` is set; when the
thread was previously joined or detached the destructor performs no join
and leaves the state unchanged. -/
theorem c3_dtor_joins_iff_joinable (t : thread) (s : Int) :
    ((thread_dtor t s).2 = true ↔ t.joinable = true) ∧
    (t.joinable = (!t.m_joined && !t.m_detached)) ∧
    (t.m_joined = true ∨ t.m_detached = true → thread_dtor t s = (t, false)) := by
  obtain ⟨p, j, d⟩ := t
  cases j <;> cases d <;>
    simp [thread_dtor, thread.joinable, thread.join]

/-- Witness for C3 at a concrete already-joined thread state. -/
theorem c3_dtor_joins_iff_joinable_witness :
    thread_dtor ⟨1, true, false⟩ 5 = (⟨1, true, false⟩, false) :=
  (c3_dtor_joins_iff_joinable ⟨1, true, false⟩ 5).2.2 (Or.inl rfl)

/-- C9: in every reachable thread state the `m_joined` and `m_detached`
flags are never both set; `join` and `detach` after a previous join or
detach leave the state unchanged, and such a `join` returns `0`. -/
theorem c9_thread_flags_invariant (t : thread) (s : Int) :
    (thread.Reachable t → ¬(t.m_joined = true ∧ t.m_detached = true)) ∧
    (t.m_joined = true ∨ t.m_detached = true →
      (t.join s).1 = t ∧ (t.join s).2.1 = 0 ∧ (t.detach).1 = t) := by
  refine ⟨thread_reachable_not_both t, fun h => ?_⟩
  have hb : (t.m_joined || t.m_detached) = true := by
    rcases h with h | h <;> simp [h]
  simp [thread.join, thread.detach, hb]

/-- Witness for C9 at a concrete already-detached thread state. -/
theorem c9_thread_flags_invariant_witness :
    ((thread.join ⟨2, false, true⟩ 9).1 = ⟨2, false, true⟩ ∧
      (thread.join ⟨2, false, true⟩ 9).2.1 = 0 ∧
      (thread.detach ⟨2, false, true⟩).1 = ⟨2, false, true⟩) :=
  (c9_thread_flags_invariant ⟨2, false, true⟩ 9).2 (Or.inr rfl)

/-- C7: a semaphore constructed with `n` tokens initially reports `n`
tokens; a successful acquire decrements the token count by one, and a
release increments it by one. -/
theorem c7_semaphore_token_count (n : Nat) (s s2 : semaphore) :
    (semaphore_ctor n).tokens = n ∧
    (s.acquire = some s2 → s.tokens = s2.tokens + 1) ∧
    (s.release).tokens = s.tokens + 1 := by
  refine ⟨rfl, fun h => ?_, rfl⟩
  unfold semaphore.acquire at h
  by_cases hp : 0 < s.tokens
  · rw [if_pos hp] at h
    cases h
    simp
    omega
  · rw [if_neg hp] at h
    cases h

/-- Witness for C7 at a concrete semaphore. -/
theorem c7_semaphore_token_count_witness :
    (semaphore_ctor 5).tokens = 5 ∧ (2 : Nat) = 1 + 1 ∧
      (semaphore.release ⟨2⟩).tokens = 2 + 1 := by
  have h := c7_semaphore_token_count 5 ⟨2⟩ ⟨1⟩
  exact ⟨h.1, h.2.1 rfl, h.2.2⟩

/-- C6: storing a string texture under an identifier overwrites the
previous association for that identifier, so that `has_stored` holds and
`get_stored` yields the newly rendered texture, while every other string
entry, the glyph map, and the font are unchanged. -/
theorem c6_store_overwrites (c : font_cache) (r : renderer) (id : Nat)
    (s : String) :
    (c.store_blended_utf8 id s r).has_stored id = true ∧
    (c.store_blended_utf8 id s r).get_stored id =
      some (r.render_blended_utf8 s c.m_font) ∧
    (∀ k, k ≠ id →
      (c.store_blended_utf8 id s r).m_strings k = c.m_strings k) ∧
    (c.store_blended_utf8 id s r).m_glyphs = c.m_glyphs ∧
    (c.store_blended_utf8 id s r).m_font = c.m_font := by
  refine ⟨?_, ?_, fun k hk => ?_, rfl, rfl⟩
  · simp [font_cache.store_blended_utf8, font_cache.store, font_cache.has_stored]
  · simp [font_cache.store_blended_utf8, font_cache.store, font_cache.get_stored]
  · simp [font_cache.store_blended_utf8, font_cache.store, hk]

/-- Witness for C6 at a concrete cache, renderer and identifier. -/
theorem c6_store_overwrites_witness :
    (cacheW.store_blended_utf8 3 "ab" rendererW).m_strings 4 =
      cacheW.m_strings 4 :=
  (c6_store_overwrites cacheW rendererW 3 "ab").2.2.1 4 (by decide)

/-- C1: `add_range(renderer, begin, end)` performs `add_glyph` once for
each code point in `[begin, end)` in increasing order (it equals the left
fold of `add_glyph` over that ascending range); `add_glyph` leaves the
cache unchanged when the glyph is already cached or not provided by the
font, and otherwise inserts exactly one entry mapping the glyph to its
rendered texture and metrics, leaving all other glyphs, the string map and
the font untouched. -/
theorem c1_add_range_add_glyph (r : renderer) (lo hi : Nat) (c : font_cache) :
    (c.add_range r lo hi =
      (List.range' lo (hi - lo)).foldl (fun acc ch => acc.add_glyph r ch) c) ∧
    (∀ (d : font_cache) (g : Nat), d.has g = true → d.add_glyph r g = d) ∧
    (∀ (d : font_cache) (g : Nat),
      d.m_font.is_glyph_provided g = false → d.add_glyph r g = d) ∧
    (∀ (d : font_cache) (g : Nat), d.has g = false →
      d.m_font.is_glyph_provided g = true →
      (d.add_glyph r g).m_glyphs g =
        some ⟨r.render_glyph g, d.m_font.metricsOf g⟩ ∧
      (∀ g2, g2 ≠ g → (d.add_glyph r g).m_glyphs g2 = d.m_glyphs g2) ∧
      (d.add_glyph r g).m_strings = d.m_strings ∧
      (d.add_glyph r g).m_font = d.m_font) := by
  refine ⟨add_range_eq_foldl (hi - lo) r c lo hi rfl, ?_, ?_, ?_⟩
  · intro d g hg
    simp [font_cache.add_glyph, hg]
  · intro d g hg
    simp [font_cache.add_glyph, hg]
  · intro d g hg hp
    refine ⟨?_, fun g2 hne => ?_, ?_, ?_⟩
    · simp [font_cache.add_glyph, hg, hp]
    · simp [font_cache.add_glyph, hg, hp, hne]
    · simp [font_cache.add_glyph, hg, hp]
    · simp [font_cache.add_glyph, hg, hp]

/-- Witness for C1 at a concrete empty cache and the range `[65, 67)`. -/
theorem c1_add_range_add_glyph_witness :
    (cacheW.add_range rendererW 65 67 =
      (List.range' 65 (67 - 65)).foldl
        (fun acc ch => acc.add_glyph rendererW ch) cacheW) ∧
    (cacheW.add_glyph rendererW 65).m_strings = cacheW.m_strings := by
  have h := c1_add_range_add_glyph rendererW 65 67 cacheW
  exact ⟨h.1, (h.2.2.2 cacheW 65 rfl rfl).2.2.1⟩

theorem u8cast_qround_natCast (x : Nat) (h : x < 256) :
    u8cast (qround (x : ℚ)) = x := by
  unfold qround u8cast
  rw [if_pos (by positivity)]
  have hf : ⌊(x : ℚ) + 1 / 2⌋ = (x : ℤ) := by
    rw [Int.floor_eq_iff]
    constructor
    · push_cast
      linarith
    · push_cast
      linarith
  rw [hf, Int.toNat_natCast]
  exact Nat.mod_eq_of_lt h

/-- C10: blending with bias `0` returns the first color, blending with
bias `1` returns the second color, and blending a color with itself
returns that color for every bias in `[0, 1]`. -/
theorem c10_blend_endpoints (a b : color) (bias : ℚ) (ha : a.valid)
    (hb : b.valid) (h0 : 0 ≤ bias) (h1 : bias ≤ 1) :
    blend a b 0 = a ∧ blend a b 1 = b ∧ blend a a bias = a := by
  obtain ⟨ha1, ha2, ha3, ha4⟩ := ha
  obtain ⟨hb1, hb2, hb3, hb4⟩ := hb
  have hcolor : ∀ c : color, (⟨⟨c.red, c.green, c.blue, c.alpha⟩⟩ : color) = c := by
    intro c
    obtain ⟨⟨cr, cg, cb, ca⟩⟩ := c
    rfl
  refine ⟨?_, ?_, ?_⟩
  · have e : ∀ x y : Nat, (x : ℚ) * (1 - 0) + (y : ℚ) * 0 = (x : ℚ) := by
      intro x y
      ring
    calc blend a b 0
        = ⟨⟨u8cast (qround ((a.red : ℚ) * (1 - 0) + (b.red : ℚ) * 0)),
            u8cast (qround ((a.green : ℚ) * (1 - 0) + (b.green : ℚ) * 0)),
            u8cast (qround ((a.blue : ℚ) * (1 - 0) + (b.blue : ℚ) * 0)),
            u8cast (qround ((a.alpha : ℚ) * (1 - 0) + (b.alpha : ℚ) * 0))⟩⟩ := rfl
      _ = a := by
          rw [e, e, e, e, u8cast_qround_natCast _ ha1,
            u8cast_qround_natCast _ ha2, u8cast_qround_natCast _ ha3,
            u8cast_qround_natCast _ ha4]
          exact hcolor a
  · have e : ∀ x y : Nat, (x : ℚ) * (1 - 1) + (y : ℚ) * 1 = (y : ℚ) := by
      intro x y
      ring
    calc blend a b 1
        = ⟨⟨u8cast (qround ((a.red : ℚ) * (1 - 1) + (b.red : ℚ) * 1)),
            u8cast (qround ((a.green : ℚ) * (1 - 1) + (b.green : ℚ) * 1)),
            u8cast (qround ((a.blue : ℚ) * (1 - 1) + (b.blue : ℚ) * 1)),
            u8cast (qround ((a.alpha : ℚ) * (1 - 1) + (b.alpha : ℚ) * 1))⟩⟩ := rfl
      _ = b := by
          rw [e, e, e, e, u8cast_qround_natCast _ hb1,
            u8cast_qround_natCast _ hb2, u8cast_qround_natCast _ hb3,
            u8cast_qround_natCast _ hb4]
          exact hcolor b
  · have e : ∀ x : Nat, (x : ℚ) * (1 - bias) + (x : ℚ) * bias = (x : ℚ) := by
      intro x
      ring
    calc blend a a bias
        = ⟨⟨u8cast (qround ((a.red : ℚ) * (1 - bias) + (a.red : ℚ) * bias)),
            u8cast (qround ((a.green : ℚ) * (1 - bias) + (a.green : ℚ) * bias)),
            u8cast (qround ((a.blue : ℚ) * (1 - bias) + (a.blue : ℚ) * bias)),
            u8cast (qround ((a.alpha : ℚ) * (1 - bias) + (a.alpha : ℚ) * bias))⟩⟩ := rfl
      _ = a := by
          rw [e, e, e, e, u8cast_qround_natCast _ ha1,
            u8cast_qround_natCast _ ha2, u8cast_qround_natCast _ ha3,
            u8cast_qround_natCast _ ha4]
          exact hcolor a

/-- Witness for C10 at two concrete colors and bias `1/2`. -/
theorem c10_blend_endpoints_witness :
    blend ⟨⟨10, 20, 30, 40⟩⟩ ⟨⟨50, 60, 70, 80⟩⟩ 0 = ⟨⟨10, 20, 30, 40⟩⟩ ∧
    blend ⟨⟨10, 20, 30, 40⟩⟩ ⟨⟨50, 60, 70, 80⟩⟩ 1 = ⟨⟨50, 60, 70, 80⟩⟩ ∧
    blend ⟨⟨10, 20, 30, 40⟩⟩ ⟨⟨10, 20, 30, 40⟩⟩ (1 / 2) = ⟨⟨10, 20, 30, 40⟩⟩ :=
  c10_blend_endpoints ⟨⟨10, 20, 30, 40⟩⟩ ⟨⟨50, 60, 70, 80⟩⟩ (1 / 2)
    (by refine ⟨?_, ?_, ?_, ?_⟩ <;> norm_num [color.red, color.green,
      color.blue, color.alpha])
    (by refine ⟨?_, ?_, ?_, ?_⟩ <;> norm_num [color.red, color.green,
      color.blue, color.alpha])
    (by norm_num) (by norm_num)

theorem hsvBranchCount_eq_one (hp : ℚ) (h0 : 0 ≤ hp) (h6 : hp ≤ 6) :
    hsvBranchCount hp = 1 := by
  unfold hsvBranchCount
  rcases le_or_lt hp 1 with c1 | c1
  · rw [if_pos ⟨h0, c1⟩, if_neg (by rintro ⟨h, _⟩; linarith),
      if_neg (by rintro ⟨h, _⟩; linarith), if_neg (by rintro ⟨h, _⟩; linarith),
      if_neg (by rintro ⟨h, _⟩; linarith), if_neg (by rintro ⟨h, _⟩; linarith)]
  · rcases le_or_lt hp 2 with c2 | c2
    · rw [if_neg (by rintro ⟨_, h⟩; linarith), if_pos ⟨c1, c2⟩,
        if_neg (by rintro ⟨h, _⟩; linarith), if_neg (by rintro ⟨h, _⟩; linarith),
        if_neg (by rintro ⟨h, _⟩; linarith), if_neg (by rintro ⟨h, _⟩; linarith)]
    · rcases le_or_lt hp 3 with c3 | c3
      · rw [if_neg (by rintro ⟨_, h⟩; linarith), if_neg (by rintro ⟨_, h⟩; linarith),
          if_pos ⟨c2, c3⟩, if_neg (by rintro ⟨h, _⟩; linarith),
          if_neg (by rintro ⟨h, _⟩; linarith), if_neg (by rintro ⟨h, _⟩; linarith)]
      · rcases le_or_lt hp 4 with c4 | c4
        · rw [if_neg (by rintro ⟨_, h⟩; linarith), if_neg (by rintro ⟨_, h⟩; linarith),
            if_neg (by rintro ⟨_, h⟩; linarith), if_pos ⟨c3, c4⟩,
            if_neg (by rintro ⟨h, _⟩; linarith), if_neg (by rintro ⟨h, _⟩; linarith)]
        · rcases le_or_lt hp 5 with c5 | c5
          · rw [if_neg (by rintro ⟨_, h⟩; linarith), if_neg (by rintro ⟨_, h⟩; linarith),
              if_neg (by rintro ⟨_, h⟩; linarith), if_neg (by rintro ⟨_, h⟩; linarith),
              if_pos ⟨c4, c5⟩, if_neg (by rintro ⟨h, _⟩; linarith)]
          · rw [if_neg (by rintro ⟨_, h⟩; linarith), if_neg (by rintro ⟨_, h⟩; linarith),
              if_neg (by rintro ⟨_, h⟩; linarith), if_neg (by rintro ⟨_, h⟩; linarith),
              if_neg (by rintro ⟨_, h⟩; linarith), if_pos ⟨c5, h6⟩]

theorem hslBranchCount_eq_one (hp : ℚ) (h0 : 0 ≤ hp) (h6 : hp < 6) :
    hslBranchCount hp = 1 := by
  unfold hslBranchCount
  rcases lt_or_le hp 1 with c1 | c1
  · rw [if_pos ⟨h0, c1⟩, if_neg (by rintro ⟨h, _⟩; linarith),
      if_neg (by rintro ⟨h, _⟩; linarith), if_neg (by rintro ⟨h, _⟩; linarith),
      if_neg (by rintro ⟨h, _⟩; linarith), if_neg (by rintro ⟨h, _⟩; linarith)]
  · rcases lt_or_le hp 2 with c2 | c2
    · rw [if_neg (by rintro ⟨_, h⟩; linarith), if_pos ⟨c1, c2⟩,
        if_neg (by rintro ⟨h, _⟩; linarith), if_neg (by rintro ⟨h, _⟩; linarith),
        if_neg (by rintro ⟨h, _⟩; linarith), if_neg (by rintro ⟨h, _⟩; linarith)]
    · rcases lt_or_le hp 3 with c3 | c3
      · rw [if_neg (by rintro ⟨_, h⟩; linarith), if_neg (by rintro ⟨_, h⟩; linarith),
          if_pos ⟨c2, c3⟩, if_neg (by rintro ⟨h, _⟩; linarith),
          if_neg (by rintro ⟨h, _⟩; linarith), if_neg (by rintro ⟨h, _⟩; linarith)]
      · rcases lt_or_le hp 4 with c4 | c4
        · rw [if_neg (by rintro ⟨_, h⟩; linarith), if_neg (by rintro ⟨_, h⟩; linarith),
            if_neg (by rintro ⟨_, h⟩; linarith), if_pos ⟨c3, c4⟩,
            if_neg (by rintro ⟨h, _⟩; linarith), if_neg (by rintro ⟨h, _⟩; linarith)]
        · rcases lt_or_le hp 5 with c5 | c5
          · rw [if_neg (by rintro ⟨_, h⟩; linarith), if_neg (by rintro ⟨_, h⟩; linarith),
              if_neg (by rintro ⟨_, h⟩; linarith), if_neg (by rintro ⟨_, h⟩; linarith),
              if_pos ⟨c4, c5⟩, if_neg (by rintro ⟨h, _⟩; linarith)]
          · rw [if_neg (by rintro ⟨_, h⟩; linarith), if_neg (by rintro ⟨_, h⟩; linarith),
              if_neg (by rintro ⟨_, h⟩; linarith), if_neg (by rintro ⟨_, h⟩; linarith),
              if_neg (by rintro ⟨_, h⟩; linarith), if_pos ⟨c5, h6⟩]

/-- C2: the entry assertions of `from_hsv`/`from_hsl` hold on all valid
inputs; the six-sector analysis of `from_hsv` covers every hue in
`[0, 360]` with exactly one branch, and that of `from_hsl` covers every
hue in `[0, 360)` — but hue `360` (i.e. `hp = 6`) matches none of the six
`from_hsl` sectors and falls through with all three components left at
zero: `from_hsl(360, 100, 50)` yields black where hue `0` yields red. -/
theorem c2_sector_coverage :
    (∀ hue saturation value : ℚ,
      0 ≤ hue → hue ≤ 360 → 0 ≤ saturation → saturation ≤ 100 →
      0 ≤ value → value ≤ 100 →
      from_hsv_assertions hue saturation value ∧
      hsvBranchCount (hue / 60) = 1) ∧
    (∀ hue saturation lightness : ℚ,
      0 ≤ hue → hue < 360 → 0 ≤ saturation → saturation ≤ 100 →
      0 ≤ lightness → lightness ≤ 100 →
      from_hsl_assertions hue saturation lightness ∧
      hslBranchCount (hue / 60) = 1) ∧
    hslBranchCount (360 / 60) = 0 ∧
    from_hsl 360 100 50 = ⟨⟨0, 0, 0, 255⟩⟩ ∧
    from_hsl 0 100 50 = ⟨⟨255, 0, 0, 255⟩⟩ := by
  refine ⟨?_, ?_, ?_, ?_, ?_⟩
  · intro hue s v h1 h2 h3 h4 h5 h6
    exact ⟨⟨h1, h2, h3, h4, h5, h6⟩,
      hsvBranchCount_eq_one _ (by linarith) (by linarith)⟩
  · intro hue s l h1 h2 h3 h4 h5 h6
    exact ⟨⟨h1, le_of_lt h2, h3, h4, h5, h6⟩,
      hslBranchCount_eq_one _ (by linarith) (by linarith)⟩
  · norm_num [hslBranchCount]
  · norm_num [from_hsl, qfmod, qround, u8cast, color.mk.injEq, SDL_Color.mk.injEq]
  · norm_num [from_hsl, qfmod, qround, u8cast, color.mk.injEq, SDL_Color.mk.injEq]
    decide

/-- Witness for C2 at concrete valid HSV and HSL inputs. -/
theorem c2_sector_coverage_witness :
    hsvBranchCount (360 / 60) = 1 ∧ hslBranchCount (90 / 60) = 1 :=
  ⟨(c2_sector_coverage.1 360 100 100 (by norm_num) (by norm_num) (by norm_num)
      (by norm_num) (by norm_num) (by norm_num)).2,
    (c2_sector_coverage.2.1 90 100 50 (by norm_num) (by norm_num) (by norm_num)
      (by norm_num) (by norm_num) (by norm_num)).2⟩

theorem rect_contains_has_area (a : rect) (px py : Int)
    (h : a.contains px py) : a.has_area = true := by
  obtain ⟨h1, h2, h3, h4⟩ := h
  simp only [rect.max_x, rect.max_y] at h2 h4
  unfold rect.has_area
  simp only [Bool.and_eq_true, decide_eq_true_eq]
  omega

theorem rect_has_area_iff (a : rect) :
    a.has_area = true ↔ 0 < a.w ∧ 0 < a.h := by
  unfold rect.has_area
  simp

/-- C8: `get_union(a, b)` contains every point of `a` and of `b`, every
rectangle containing all points of `a` and `b` contains every point of
`get_union(a, b)` (so the union is the smallest rectangle containing
both), and `get_union` is commutative. -/
theorem c8_get_union_bounding_box (a b : rect) :
    (∀ px py, a.contains px py ∨ b.contains px py →
      (get_union a b).contains px py) ∧
    (∀ r : rect,
      (∀ px py, a.contains px py ∨ b.contains px py → r.contains px py) →
      ∀ px py, (get_union a b).contains px py → r.contains px py) ∧
    get_union a b = get_union b a := by
  by_cases ha : a.has_area = true <;> by_cases hb : b.has_area = true
  · obtain ⟨haw, hah⟩ := (rect_has_area_iff a).mp ha
    obtain ⟨hbw, hbh⟩ := (rect_has_area_iff b).mp hb
    have hu : get_union a b =
        ⟨min a.x b.x, min a.y b.y,
          max a.max_x b.max_x - min a.x b.x,
          max a.max_y b.max_y - min a.y b.y⟩ := by
      simp [get_union, ha, hb]
    refine ⟨?_, ?_, ?_⟩
    · intro px py h
      rw [hu]
      simp only [rect.contains, rect.max_x, rect.max_y] at h ⊢
      rcases h with ⟨h1, h2, h3, h4⟩ | ⟨h1, h2, h3, h4⟩ <;>
        refine ⟨?_, ?_, ?_, ?_⟩ <;> omega
    · intro r hr px py hc
      have c1 := hr a.x a.y
        (Or.inl (by simp only [rect.contains, rect.max_x, rect.max_y]; omega))
      have c2 := hr (a.max_x - 1) (a.max_y - 1)
        (Or.inl (by simp only [rect.contains, rect.max_x, rect.max_y]; omega))
      have c3 := hr b.x b.y
        (Or.inr (by simp only [rect.contains, rect.max_x, rect.max_y]; omega))
      have c4 := hr (b.max_x - 1) (b.max_y - 1)
        (Or.inr (by simp only [rect.contains, rect.max_x, rect.max_y]; omega))
      rw [hu] at hc
      simp only [rect.contains, rect.max_x, rect.max_y] at c1 c2 c3 c4 hc ⊢
      omega
    · have hu2 : get_union b a =
          ⟨min b.x a.x, min b.y a.y,
            max b.max_x a.max_x - min b.x a.x,
            max b.max_y a.max_y - min b.y a.y⟩ := by
        simp [get_union, ha, hb]
      rw [hu, hu2]
      simp only [rect.mk.injEq, rect.max_x, rect.max_y]
      refine ⟨?_, ?_, ?_, ?_⟩ <;> omega
  · have hu : get_union a b = a := by simp [get_union, ha, hb]
    have hu2 : get_union b a = a := by simp [get_union, ha, hb]
    refine ⟨?_, ?_, by rw [hu, hu2]⟩
    · intro px py h
      rcases h with h | h
      · rwa [hu]
      · exact absurd (rect_contains_has_area b px py h) (by simp [hb])
    · intro r hr px py hc
      exact hr px py (Or.inl (hu ▸ hc))
  · have hu : get_union a b = b := by simp [get_union, ha, hb]
    have hu2 : get_union b a = b := by simp [get_union, ha, hb]
    refine ⟨?_, ?_, by rw [hu, hu2]⟩
    · intro px py h
      rcases h with h | h
      · exact absurd (rect_contains_has_area a px py h) (by simp [ha])
      · rwa [hu]
    · intro r hr px py hc
      exact hr px py (Or.inr (hu ▸ hc))
  · have hu : get_union a b = ⟨0, 0, 0, 0⟩ := by simp [get_union, ha, hb]
    have hu2 : get_union b a = ⟨0, 0, 0, 0⟩ := by simp [get_union, ha, hb]
    refine ⟨?_, ?_, by rw [hu, hu2]⟩
    · intro px py h
      rcases h with h | h
      · exact absurd (rect_contains_has_area a px py h) (by simp [ha])
      · exact absurd (rect_contains_has_area b px py h) (by simp [hb])
    · intro r hr px py hc
      rw [hu] at hc
      simp only [rect.contains, rect.max_x, rect.max_y] at hc
      omega

/-- Witness for C8 at the two rectangles of the repository test. -/
theorem c8_get_union_bounding_box_witness :
    get_union ⟨10, 10, 50, 50⟩ ⟨40, 40, 50, 50⟩ =
      get_union ⟨40, 40, 50, 50⟩ ⟨10, 10, 50, 50⟩ ∧
    (get_union ⟨10, 10, 50, 50⟩ ⟨40, 40, 50, 50⟩).contains 15 12 := by
  have h := c8_get_union_bounding_box ⟨10, 10, 50, 50⟩ ⟨40, 40, 50, 50⟩
  exact ⟨h.2.2, h.1 15 12 (Or.inl (by decide))⟩

end Centurion
